import Mathlib

/-!
Verification of the booking-latency pipeline (final.py / dashboard.py).

Duration strings are embedded as `List Char` / `String`; numeric seconds as
`ℚ` (Python floats modelled exactly); a missing value (`None` / `NaN`) as
`Option.none`.  The three anchored regexes of `parse_latency_string` are
embedded as deterministic maximal-munch matchers; `\d` and `\s` are embedded
at their ASCII meaning, and the `$` anchor as end of input (no claimed input
carries a trailing newline, where Python `$` would also match).
-/

/-- ASCII decimal digit, embedding `\d` of the source regexes. -/
def isDigitCh (c : Char) : Bool := decide ('0' ≤ c) && decide (c ≤ '9')

/-- ASCII whitespace, embedding `\s` of the source regexes. -/
def isSpaceCh (c : Char) : Bool :=
  decide (c = ' ') || decide (c = '\t') || decide (c = '\n') ||
  decide (c = '\x0b') || decide (c = '\x0c') || decide (c = '\r')

/-- Maximal run of digits at the front of the input (`\d+` with its
non-digit continuation), returning (run, rest). -/
def takeDigits : List Char → List Char × List Char
  | [] => ([], [])
  | c :: cs =>
    if isDigitCh c then ((c :: (takeDigits cs).1), (takeDigits cs).2)
    else ([], c :: cs)

/-- Maximal run of whitespace at the front of the input (`\s+` with its
non-space continuation). -/
def takeSpaces : List Char → List Char × List Char
  | [] => ([], [])
  | c :: cs =>
    if isSpaceCh c then ((c :: (takeSpaces cs).1), (takeSpaces cs).2)
    else ([], c :: cs)

/-- Numeric value of a digit run, as Python `float("...")` on an integer
literal (leading zeros allowed). -/
def natVal (ds : List Char) : ℕ :=
  ds.foldl (fun a c => a * 10 + (c.toNat - 48)) 0

/-- Value of the fractional digits after the decimal point: `float("c.f")`
contributes `natVal f / 10 ^ |f|`. -/
def fracVal (ds : List Char) : ℚ :=
  (natVal ds : ℚ) / (10 : ℚ) ^ ds.length

/-- Consume `\s+`: at least one whitespace character, maximal munch. -/
def spacesThen (s : List Char) : Option (List Char) :=
  if (takeSpaces s).1 = [] then none else some (takeSpaces s).2

/-- Consume a literal word. -/
def litThen : List Char → List Char → Option (List Char)
  | [], s => some s
  | _ :: _, [] => none
  | c :: w, d :: s => if c = d then litThen w s else none

/-- Consume an optional single character (`[s]?` / `s?`); the followers in
every source regex (`,` or `\s`) differ from `s`, so consuming a present `s`
is exactly the regex's backtracking behaviour. -/
def optChar (c : Char) : List Char → List Char
  | [] => []
  | d :: s => if d = c then s else d :: s

/-- Consume `\d+(\.\d+)?` and return its `float` value with the rest of the
input.  A dot not followed by digits is left unconsumed by the regex; every
source continuation (`$` or `\s+`) then fails on it, so returning `none`
there is equivalent. -/
def numberThen (s : List Char) : Option (ℚ × List Char) :=
  if (takeDigits s).1 = [] then none else
  match (takeDigits s).2 with
  | '.' :: r =>
    if (takeDigits r).1 = [] then none
    else some ((natVal (takeDigits s).1 : ℚ) + fracVal (takeDigits r).1, (takeDigits r).2)
  | r => some ((natVal (takeDigits s).1 : ℚ), r)

/-- Pattern C of `parse_latency_string` (final.py:27):
`^(?P<hours>\d+):(?P<minutes>\d+):(?P<seconds>\d+(\.\d+)?)$`, value
`hours*3600 + minutes*60 + seconds`. -/
def matchClock (s : List Char) : Option ℚ :=
  if (takeDigits s).1 = [] then none else
  match (takeDigits s).2 with
  | ':' :: r2 =>
    if (takeDigits r2).1 = [] then none else
    match (takeDigits r2).2 with
    | ':' :: r4 =>
      match numberThen r4 with
      | some (sec, []) =>
        some ((natVal (takeDigits s).1 : ℚ) * 3600 + (natVal (takeDigits r2).1 : ℚ) * 60 + sec)
      | _ => none
    | _ => none
  | _ => none

/-- Pattern B of `parse_latency_string` (final.py:37):
`^(?P<days>\d+)\s+day[s]?,\s+(?P<hours>\d+):(?P<minutes>\d+):(?P<seconds>\d+(\.\d+)?)$`,
value `days*86400 +` the clock value. -/
def matchDayClock (s : List Char) : Option ℚ :=
  if (takeDigits s).1 = [] then none else
  match spacesThen (takeDigits s).2 with
  | none => none
  | some r2 =>
    match litThen ['d', 'a', 'y'] r2 with
    | none => none
    | some r3 =>
      match litThen [','] (optChar 's' r3) with
      | none => none
      | some r4 =>
        match spacesThen r4 with
        | none => none
        | some r5 =>
          match matchClock r5 with
          | none => none
          | some clock => some ((natVal (takeDigits s).1 : ℚ) * 86400 + clock)

/-- Consume a unit word with optional plural `s` followed by `\s+`
(`days?\s+`, `hours?\s+`, `mins?\s+`, also `years?\s+`, `mons?\s+`). -/
def unitThen (w : List Char) (s : List Char) : Option (List Char) :=
  match litThen w s with
  | none => none
  | some r => spacesThen (optChar 's' r)

/-- Pattern A of `parse_latency_string` (final.py:48):
`^(?P<days>\d+)\s+days?\s+(?P<hours>\d+)\s+hours?\s+(?P<minutes>\d+)\s+mins?\s+(?P<secs>\d+(\.\d+)?)\s+secs$`,
value `days*86400 + hours*3600 + minutes*60 + seconds`.  Note there is no
years/mons prefix in this regex. -/
def matchVerbose (s : List Char) : Option ℚ :=
  if (takeDigits s).1 = [] then none else
  match spacesThen (takeDigits s).2 with
  | none => none
  | some r1 =>
  match unitThen ['d', 'a', 'y'] r1 with
  | none => none
  | some r2 =>
  if (takeDigits r2).1 = [] then none else
  match spacesThen (takeDigits r2).2 with
  | none => none
  | some r3 =>
  match unitThen ['h', 'o', 'u', 'r'] r3 with
  | none => none
  | some r4 =>
  if (takeDigits r4).1 = [] then none else
  match spacesThen (takeDigits r4).2 with
  | none => none
  | some r5 =>
  match unitThen ['m', 'i', 'n'] r5 with
  | none => none
  | some r6 =>
  match numberThen r6 with
  | none => none
  | some (sec, r7) =>
    match spacesThen r7 with
    | none => none
    | some r8 =>
      if r8 = ['s', 'e', 'c', 's'] then
        some ((natVal (takeDigits s).1 : ℚ) * 86400 + (natVal (takeDigits r2).1 : ℚ) * 3600
          + (natVal (takeDigits r4).1 : ℚ) * 60 + sec)
      else none

/-- `parse_latency_string` (final.py:14-59) on the character list of its
string argument: patterns C, B, A are tried in this order, `None` when all
fail. -/
def parseChars (cs : List Char) : Option ℚ :=
  match matchClock cs with
  | some v => some v
  | none =>
    match matchDayClock cs with
    | some v => some v
    | none => matchVerbose cs

/-- `parse_latency_string` on a genuine string argument (the `isinstance`
guard of final.py:23 is the `Option.bind` at every call site below). -/
def parse_latency_string (s : String) : Option ℚ :=
  parseChars s.data

set_option maxRecDepth 4000

/-- The custom-regex branch of `parse_timedelta_safe` (dashboard.py:46-61):
`^(?P<years>\d+)\s+years?\s+(?P<mons>\d+)\s+mons?\s+(?P<days>\d+)\s+days?\s+(?P<hours>\d+)\s+hours?\s+(?P<minutes>\d+)\s+mins?\s+(?P<seconds>\d+(\.\d+)?)\s+secs$`,
value `(years*365 + mons*30 + days)*86400 + hours*3600 + minutes*60 + seconds`
seconds.  (`pd.to_timedelta`, tried first at dashboard.py:41, raises on the
years/mons strings this branch exists for, so on them this regex decides the
result.) -/
def parse_timedelta_safe_verbose (s : String) : Option ℚ :=
  if (takeDigits s.data).1 = [] then none else
  match spacesThen (takeDigits s.data).2 with
  | none => none
  | some q1 =>
  match unitThen ['y', 'e', 'a', 'r'] q1 with
  | none => none
  | some q2 =>
  if (takeDigits q2).1 = [] then none else
  match spacesThen (takeDigits q2).2 with
  | none => none
  | some q3 =>
  match unitThen ['m', 'o', 'n'] q3 with
  | none => none
  | some q4 =>
  if (takeDigits q4).1 = [] then none else
  match spacesThen (takeDigits q4).2 with
  | none => none
  | some q5 =>
  match unitThen ['d', 'a', 'y'] q5 with
  | none => none
  | some q6 =>
  if (takeDigits q6).1 = [] then none else
  match spacesThen (takeDigits q6).2 with
  | none => none
  | some q7 =>
  match unitThen ['h', 'o', 'u', 'r'] q7 with
  | none => none
  | some q8 =>
  if (takeDigits q8).1 = [] then none else
  match spacesThen (takeDigits q8).2 with
  | none => none
  | some q9 =>
  match unitThen ['m', 'i', 'n'] q9 with
  | none => none
  | some q10 =>
  match numberThen q10 with
  | none => none
  | some (sec, q11) =>
    match spacesThen q11 with
    | none => none
    | some q12 =>
      if q12 = ['s', 'e', 'c', 's'] then
        some (((natVal (takeDigits s.data).1 : ℚ) * 365 + (natVal (takeDigits q2).1 : ℚ) * 30
            + (natVal (takeDigits q4).1 : ℚ)) * 86400
          + (natVal (takeDigits q6).1 : ℚ) * 3600 + (natVal (takeDigits q8).1 : ℚ) * 60 + sec)
      else none

/-- Decimal digit character for a digit value (`str` of Python ints emits
canonical decimal digits). -/
def digitCh (k : ℕ) : Char :=
  match k with
  | 0 => '0' | 1 => '1' | 2 => '2' | 3 => '3' | 4 => '4'
  | 5 => '5' | 6 => '6' | 7 => '7' | 8 => '8' | _ => '9'

/-- Decimal digits of a natural number, accumulator based; the fuel `n + 1`
always suffices since a number has at most `n + 1` decimal digits. -/
def natDigitsAux : ℕ → ℕ → List Char → List Char
  | 0, _, acc => acc
  | fuel + 1, n, acc =>
    if n / 10 = 0 then digitCh (n % 10) :: acc
    else natDigitsAux fuel (n / 10) (digitCh (n % 10) :: acc)

/-- Decimal rendering of a natural number, as Python `str`/`format`. -/
def natDigits (n : ℕ) : List Char := natDigitsAux (n + 1) n []

/-- Decimal rendering of an integer, as Python `f"{days}"`. -/
def intDigits : ℤ → List Char
  | Int.ofNat n => natDigits n
  | Int.negSucc n => '-' :: natDigits (n + 1)

/-- Python `f"{n:02d}"`: decimal digits left padded with `0` to width 2. -/
def pad2 (n : ℕ) : List Char :=
  if 2 ≤ (natDigits n).length then natDigits n else '0' :: natDigits n

/-- Python `round` on an exact value: round half to even (banker's
rounding), the semantics of `round(float)`. -/
def pyround (q : ℚ) : ℤ :=
  if q - ⌊q⌋ < 1 / 2 then ⌊q⌋
  else if 1 / 2 < q - ⌊q⌋ then ⌊q⌋ + 1
  else if ⌊q⌋ % 2 = 0 then ⌊q⌋ else ⌊q⌋ + 1

/-- The literal text between the day count and the clock part of the
rendered form `f"{days} days {hh:02d}:{mm:02d}:{ss:02d}"`. -/
def sepDays : List Char := [' ', 'd', 'a', 'y', 's', ' ']

/-- The string built by `format_seconds_as_string` (final.py:70-75) from the
already-rounded integer second count: `pd.to_timedelta(r, unit='s')` holds
`r` seconds and its `.components` are the floor-divmod chain
days/hours/minutes/seconds, rendered as
`f"{days} days {hh:02d}:{mm:02d}:{ss:02d}"`. -/
def format_core (r : ℤ) : String :=
  String.mk (intDigits (Int.fdiv r 86400) ++ sepDays
    ++ pad2 (Int.fdiv (Int.fmod r 86400) 3600).toNat
    ++ ':' :: pad2 (Int.fdiv (Int.fmod (Int.fmod r 86400) 3600) 60).toNat
    ++ ':' :: pad2 (Int.fmod (Int.fmod (Int.fmod r 86400) 3600) 60).toNat)

/-- `format_seconds_as_string` (final.py:61-75): `''` on a missing value
(`pd.isnull`), otherwise `round` then render as `"D days HH:MM:SS"`. -/
def format_seconds_as_string : Option ℚ → String
  | none => ""
  | some v => format_core (pyround v)

/-- Modelled from the spec: the fixed render form
`"{days} days {hours:02d}:{minutes:02d}:{seconds:02d}"` of a whole second
count (§4.4), with the standard divmod decomposition into days, hours,
minutes and seconds. -/
def spec_render (n : ℕ) : String :=
  String.mk (natDigits (n / 86400) ++ sepDays
    ++ pad2 (n % 86400 / 3600)
    ++ ':' :: pad2 (n % 86400 % 3600 / 60)
    ++ ':' :: pad2 (n % 86400 % 3600 % 60))

/-- The SLA threshold constant (final.py:10): 30 minutes = 1800 seconds. -/
def threshold_sec : ℚ := 1800

/-- `within_mask` (final.py:163): `total_latency_sec <= threshold_sec`; a
missing (`NaN`) total compares false. -/
def within_mask : Option ℚ → Bool
  | none => false
  | some v => decide (v ≤ threshold_sec)

/-- `exceed_mask` (final.py:164): `total_latency_sec > threshold_sec`; a
missing (`NaN`) total compares false. -/
def exceed_mask : Option ℚ → Bool
  | none => false
  | some v => decide (threshold_sec < v)

/-- The totals of the rows selected by `exceed_mask` (final.py:171): the
non-missing totals strictly above the threshold, in batch order. -/
def exceedValues (batch : List (Option ℚ)) : List ℚ :=
  (batch.filterMap id).filter (fun v => decide (threshold_sec < v))

/-- Pandas `Series.rank(pct=True)` (final.py:171), tie method `average`:
the rank of value `x` in series `l` is the mean of its minimal 1-based
ordinal rank (count of strictly smaller entries + 1) and its maximal
ordinal rank (count of entries ≤ `x`), divided by the series length. -/
def rank_pct (l : List ℚ) (x : ℚ) : ℚ :=
  (((l.countP (fun y => decide (y < x)) : ℚ) + 1 + (l.countP (fun y => decide (y ≤ x)) : ℚ)) / 2)
    / (l.length : ℚ)

/-- The `breach_rank` column (final.py:171-172): the percentile rank of an
exceeding row's total among the exceeding subset only. -/
def breach_rank (batch : List (Option ℚ)) (v : ℚ) : ℚ :=
  rank_pct (exceedValues batch) v

/-- Modelled from the spec: "rank = fraction of the exceeding subset with
`total_seconds` ≤ this record's value" (§4.3); stated for comparison with
the pandas `rank_pct` the code uses. -/
def spec_fracLE (l : List ℚ) (x : ℚ) : ℚ :=
  (l.countP (fun y => decide (y ≤ x)) : ℚ) / (l.length : ℚ)

/-- `pd.cut` (final.py:174-179) with bins `[0, .5, .6, .7, .8, .9, 1.0]`,
right-closed intervals, `include_lowest=True` (so the first interval is
`[0, 0.5]`), and the six labels; a value outside `[0, 1]` gets `NaN`. -/
def binLabel (r : ℚ) : Option String :=
  if r < 0 then none
  else if r ≤ 1 / 2 then some "<=50th percentile"
  else if r ≤ 6 / 10 then some "50-60th percentile"
  else if r ≤ 7 / 10 then some "60-70th percentile"
  else if r ≤ 8 / 10 then some "70-80th percentile"
  else if r ≤ 9 / 10 then some "80-90th percentile"
  else if r ≤ 1 then some "90-100th percentile"
  else none

/-- The `breach_category` column of one row (final.py:163-179): `None` is
the initial value kept by rows selected by neither mask; a within-threshold
row gets the fixed label; an exceeding row gets its binned percentile rank
computed among the batch's exceeding subset.  (The `exceed_mask.sum() > 0`
guard is vacuous per exceeding row: such a row makes the subset
non-empty.) -/
def breach_category (batch : List (Option ℚ)) : Option ℚ → Option String
  | none => none
  | some v =>
    if v ≤ threshold_sec then some "Within Threshold"
    else binLabel (breach_rank batch v)

/-- The whole `breach_category` column: the classification is batch level,
each row is labeled against the same exceeding subset. -/
def classify_batch (batch : List (Option ℚ)) : List (Option String) :=
  batch.map (breach_category batch)

/-- Whether `pat` begins the list `s`. -/
def startsWithSeq : List Char → List Char → Bool
  | [], _ => true
  | _ :: _, [] => false
  | c :: w, d :: s => c = d && startsWithSeq w s

/-- Python's substring test `pat in s` on character lists. -/
def hasSubSeq (pat : List Char) : List Char → Bool
  | [] => startsWithSeq pat []
  | d :: s => startsWithSeq pat (d :: s) || hasSubSeq pat s

/-- Python `str.strip()` on ASCII whitespace. -/
def pythonStrip (s : List Char) : List Char :=
  ((s.dropWhile isSpaceCh).reverse.dropWhile isSpaceCh).reverse

/-- `categorize_breach` (dashboard.py:76-97): a missing breach value maps to
`"Missing Data"`, the known labels map to themselves (matched literally for
the first two, by substring for the percentile bands), anything else to
`"Missing Data"`. -/
def categorize_breach : Option String → String
  | none => "Missing Data"
  | some b =>
    if String.mk (pythonStrip b.data) = "Within Threshold"
        ∨ String.mk (pythonStrip b.data) = "<=50th percentile" then
      String.mk (pythonStrip b.data)
    else if hasSubSeq "50-60th".data (pythonStrip b.data) then "50-60th percentile"
    else if hasSubSeq "60-70th".data (pythonStrip b.data) then "60-70th percentile"
    else if hasSubSeq "70-80th".data (pythonStrip b.data) then "70-80th percentile"
    else if hasSubSeq "80-90th".data (pythonStrip b.data) then "80-90th percentile"
    else if hasSubSeq "90-100th".data (pythonStrip b.data) then "90-100th percentile"
    else "Missing Data"

/-- One row of the A→B CSV after the renames of final.py:121-126.  Missing
cells are `none`; `latency_a_to_b_sec` is the precomputed numeric
`latency_in_seconds` column. -/
structure ABRecord where
  booking_code : String
  booking_received_at : Option String
  booking_pushed_at : Option String
  latency_a_to_b_str : Option String
  latency_a_to_b_sec : Option ℚ
deriving DecidableEq

/-- One row of the B→C CSV after the renames of final.py:128-133. -/
structure BCRecord where
  booking_code : String
  invoice_created_at : Option String
  latency_b_to_c_str : Option String
deriving DecidableEq

/-- One row of the merged frame. -/
structure JoinedRecord where
  ab : ABRecord
  bc : BCRecord
deriving DecidableEq

/-- `pd.merge(df_ab, df_bc, on='booking_code', how='inner')`
(final.py:140): every pair of rows agreeing on `booking_code`, left rows in
order, each with its matching right rows in order. -/
def innerJoin (ab : List ABRecord) (bc : List BCRecord) : List JoinedRecord :=
  ab.flatMap (fun a =>
    (bc.filter (fun b => b.booking_code == a.booking_code)).map (fun b => ⟨a, b⟩))

/-- `latency_b_to_c_sec` (final.py:148): `parse_latency_string` applied to
the raw string; a missing cell is not a `str`, so it parses to `None`. -/
def latency_b_to_c_sec (j : JoinedRecord) : Option ℚ :=
  j.bc.latency_b_to_c_str.bind parse_latency_string

/-- `total_latency_sec` (final.py:157): the sum of the two legs, `NaN`
(here `none`) as soon as either leg is missing or unparseable. -/
def total_latency_sec (j : JoinedRecord) : Option ℚ :=
  match j.ab.latency_a_to_b_sec, latency_b_to_c_sec j with
  | some x, some y => some (x + y)
  | _, _ => none

/-- One row of the final report (final.py:188-208), restricted to the
columns the verified claims are about; the display-only fractional-second
stripping of the timestamp and raw-latency columns (final.py:210-214) is
not modelled, those four columns are carried through raw. -/
structure ReportRow where
  booking_code : String
  booking_received_at : Option String
  booking_pushed_at : Option String
  invoice_created_at : Option String
  latency_a_to_b : Option String
  latency_b_to_c : Option String
  total_latency : String
  breach_percentage : Option String
deriving DecidableEq

/-- The report row built from one joined row (final.py:181-208): the
rendered total (final.py:185) and the breach category, which final.py:182
copies into the `breach_percentage` column. -/
def toReportRow (batch : List (Option ℚ)) (j : JoinedRecord) : ReportRow where
  booking_code := j.ab.booking_code
  booking_received_at := j.ab.booking_received_at
  booking_pushed_at := j.ab.booking_pushed_at
  invoice_created_at := j.bc.invoice_created_at
  latency_a_to_b := j.ab.latency_a_to_b_str
  latency_b_to_c := j.bc.latency_b_to_c_str
  total_latency := format_seconds_as_string (total_latency_sec j)
  breach_percentage := breach_category batch (total_latency_sec j)

/-- Steps 4-10 of `main` (final.py:138-217): inner join, total seconds per
row, batch-level classification, rendering. -/
def make_report (ab : List ABRecord) (bc : List BCRecord) : List ReportRow :=
  (innerJoin ab bc).map (toReportRow ((innerJoin ab bc).map total_latency_sec))

/-- The `booking_code` column of the final report. -/
def reportCodes (ab : List ABRecord) (bc : List BCRecord) : List String :=
  (make_report ab bc).map ReportRow.booking_code

/-- An A→B row whose precomputed numeric leg is present. -/
def abOk : ABRecord := ⟨"B1", none, none, some "0:06:04.304215", some 100⟩

/-- A B→C row whose duration text matches none of the three encodings. -/
def bcBad : BCRecord := ⟨"B1", none, some "garbage"⟩

/-- A joined record whose B→C leg fails to parse. -/
def jBad : JoinedRecord := ⟨abOk, bcBad⟩

/-- A two-row A→B input whose codes are X and Y. -/
def abEx : List ABRecord :=
  [⟨"X", none, none, none, some 100⟩, ⟨"Y", none, none, none, some 200⟩]

/-- A one-row B→C input whose only code is X. -/
def bcEx : List BCRecord := [⟨"X", none, none⟩]

lemma isSpaceCh_of_isDigitCh {c : Char} (h : isDigitCh c = true) : isSpaceCh c = false := by
  unfold isSpaceCh
  simp only [Bool.or_eq_false_iff, decide_eq_false_iff_not]
  refine ⟨⟨⟨⟨⟨?_, ?_⟩, ?_⟩, ?_⟩, ?_⟩, ?_⟩ <;> rintro rfl <;> exact absurd h (by decide)

lemma takeDigits_append (l r : List Char) (hl : ∀ c ∈ l, isDigitCh c = true)
    (hr : ∀ c, r.head? = some c → isDigitCh c = false) :
    takeDigits (l ++ r) = (l, r) := by
  induction l with
  | nil =>
    cases r with
    | nil => rfl
    | cons c cs => simp [takeDigits, hr c rfl]
  | cons c cs ih =>
    have hc : isDigitCh c = true := hl c (by simp)
    have := ih (fun d hd => hl d (by simp [hd]))
    simp [takeDigits, hc, this]

lemma takeSpaces_append (l r : List Char) (hl : ∀ c ∈ l, isSpaceCh c = true)
    (hr : ∀ c, r.head? = some c → isSpaceCh c = false) :
    takeSpaces (l ++ r) = (l, r) := by
  induction l with
  | nil =>
    cases r with
    | nil => rfl
    | cons c cs => simp [takeSpaces, hr c rfl]
  | cons c cs ih =>
    have hc : isSpaceCh c = true := hl c (by simp)
    have := ih (fun d hd => hl d (by simp [hd]))
    simp [takeSpaces, hc, this]

lemma digitCh_isDigit (k : ℕ) : isDigitCh (digitCh k) = true := by
  unfold digitCh
  split <;> decide

lemma natDigitsAux_mem :
    ∀ fuel n acc c, c ∈ natDigitsAux fuel n acc → isDigitCh c = true ∨ c ∈ acc := by
  intro fuel
  induction fuel with
  | zero => intro n acc c h; exact Or.inr h
  | succ fuel ih =>
    intro n acc c h
    unfold natDigitsAux at h
    split at h
    · rcases List.mem_cons.mp h with h | h
      · exact Or.inl (h ▸ digitCh_isDigit _)
      · exact Or.inr h
    · rcases ih _ _ _ h with h | h
      · exact Or.inl h
      · rcases List.mem_cons.mp h with h | h
        · exact Or.inl (h ▸ digitCh_isDigit _)
        · exact Or.inr h

lemma natDigits_all (n : ℕ) : ∀ c ∈ natDigits n, isDigitCh c = true := by
  intro c h
  rcases natDigitsAux_mem _ _ _ _ h with h | h
  · exact h
  · simp at h

lemma natDigitsAux_ne_nil :
    ∀ fuel n acc, acc ≠ [] → natDigitsAux fuel n acc ≠ [] := by
  intro fuel
  induction fuel with
  | zero => intro n acc h; exact h
  | succ fuel ih =>
    intro n acc h
    unfold natDigitsAux
    split
    · simp
    · exact ih _ _ (by simp)

lemma natDigits_ne_nil (n : ℕ) : natDigits n ≠ [] := by
  unfold natDigits natDigitsAux
  split
  · simp
  · exact natDigitsAux_ne_nil _ _ _ (by simp)

lemma pad2_all (h : ℕ) : ∀ c ∈ pad2 h, isDigitCh c = true := by
  intro c hc
  unfold pad2 at hc
  split at hc
  · exact natDigits_all _ _ hc
  · rcases List.mem_cons.mp hc with hc | hc
    · exact hc ▸ by decide
    · exact natDigits_all _ _ hc

lemma pad2_ne_nil (h : ℕ) : pad2 h ≠ [] := by
  unfold pad2
  split
  · exact natDigits_ne_nil _
  · simp

lemma pyround_nearest (q : ℚ) : |q - (pyround q : ℚ)| ≤ 1 / 2 := by
  have h0 : (⌊q⌋ : ℚ) ≤ q := Int.floor_le q
  have h1 : q < ⌊q⌋ + 1 := Int.lt_floor_add_one q
  unfold pyround
  split_ifs with a b c <;> push_cast <;> rw [abs_le] <;> constructor <;> linarith

lemma pyround_intCast (n : ℤ) : pyround ((n : ℚ)) = n := by
  unfold pyround
  rw [Int.floor_intCast]
  norm_num

lemma pyround_nonneg {v : ℚ} (h : 0 ≤ v) : 0 ≤ pyround v := by
  have hf : 0 ≤ ⌊v⌋ := Int.floor_nonneg.mpr h
  unfold pyround
  split_ifs <;> omega

lemma fdiv_natCast (m k : ℕ) : Int.fdiv ((m : ℤ)) ((k : ℤ)) = ((m / k : ℕ) : ℤ) :=
  (Int.ofNat_fdiv m k).symm

lemma fmod_natCast (m k : ℕ) : Int.fmod ((m : ℤ)) ((k : ℤ)) = ((m % k : ℕ) : ℤ) :=
  (Int.ofNat_fmod m k).symm

lemma intDigits_natCast (m : ℕ) : intDigits ((m : ℤ)) = natDigits m := rfl

lemma format_core_natCast (n : ℕ) : format_core ((n : ℤ)) = spec_render n := by
  unfold format_core spec_render
  simp only [show ((86400 : ℤ)) = ((86400 : ℕ) : ℤ) from by norm_num,
    show ((3600 : ℤ)) = ((3600 : ℕ) : ℤ) from by norm_num,
    show ((60 : ℤ)) = ((60 : ℕ) : ℤ) from by norm_num,
    fdiv_natCast, fmod_natCast, intDigits_natCast, Int.toNat_natCast]

lemma head_sepDays_append (X : List Char) :
    ∀ c, (sepDays ++ X).head? = some c → isDigitCh c = false := by
  intro c hc
  simp [sepDays] at hc
  subst hc
  decide

lemma matchClock_render (a h : ℕ) (rest : List Char) :
    matchClock (natDigits a ++ (sepDays ++ (pad2 h ++ ':' :: rest))) = none := by
  have htd := takeDigits_append (natDigits a) (sepDays ++ (pad2 h ++ ':' :: rest))
    (natDigits_all a) (head_sepDays_append _)
  unfold matchClock
  rw [htd]
  simp +decide [natDigits_ne_nil a, sepDays]

lemma matchDayClock_render (a h : ℕ) (rest : List Char) :
    matchDayClock (natDigits a ++ (sepDays ++ (pad2 h ++ ':' :: rest))) = none := by
  have htd := takeDigits_append (natDigits a) (sepDays ++ (pad2 h ++ ':' :: rest))
    (natDigits_all a) (head_sepDays_append _)
  have hsp : takeSpaces ([' '] ++ ('d' :: 'a' :: 'y' :: 's' :: ' ' :: (pad2 h ++ ':' :: rest)))
      = ([' '], 'd' :: 'a' :: 'y' :: 's' :: ' ' :: (pad2 h ++ ':' :: rest)) :=
    takeSpaces_append [' '] _ (by decide) (fun c hc => by simp at hc; subst hc; decide)
  unfold matchDayClock
  rw [htd]
  simp only [sepDays, List.cons_append, List.nil_append] at hsp ⊢
  simp +decide [natDigits_ne_nil a, spacesThen, hsp, litThen, optChar]

lemma matchVerbose_render (a h : ℕ) (rest : List Char) :
    matchVerbose (natDigits a ++ (sepDays ++ (pad2 h ++ ':' :: rest))) = none := by
  have htd := takeDigits_append (natDigits a) (sepDays ++ (pad2 h ++ ':' :: rest))
    (natDigits_all a) (head_sepDays_append _)
  have hsp : takeSpaces ([' '] ++ ('d' :: 'a' :: 'y' :: 's' :: ' ' :: (pad2 h ++ ':' :: rest)))
      = ([' '], 'd' :: 'a' :: 'y' :: 's' :: ' ' :: (pad2 h ++ ':' :: rest)) :=
    takeSpaces_append [' '] _ (by decide) (fun c hc => by simp at hc; subst hc; decide)
  have hpadhead : ∀ c, (pad2 h ++ ':' :: rest).head? = some c → isSpaceCh c = false := by
    intro c hc
    rcases List.exists_cons_of_ne_nil (pad2_ne_nil h) with ⟨p, ps, hp⟩
    rw [hp] at hc
    simp at hc
    subst hc
    exact isSpaceCh_of_isDigitCh (pad2_all h p (by rw [hp]; simp))
  have hsp2 : takeSpaces ([' '] ++ (pad2 h ++ ':' :: rest))
      = ([' '], pad2 h ++ ':' :: rest) :=
    takeSpaces_append [' '] _ (by decide) hpadhead
  have htd2 : takeDigits (pad2 h ++ ':' :: rest) = (pad2 h, ':' :: rest) :=
    takeDigits_append _ _ (pad2_all h) (fun c hc => by simp at hc; subst hc; decide)
  have hsp3 : takeSpaces (':' :: rest) = ([], ':' :: rest) :=
    takeSpaces_append [] _ (by simp) (fun c hc => by simp at hc; subst hc; decide)
  unfold matchVerbose
  rw [htd]
  simp only [sepDays, List.cons_append, List.nil_append] at hsp hsp2 ⊢
  simp +decide [natDigits_ne_nil a, spacesThen, hsp, unitThen, litThen, optChar, hsp2, htd2,
    pad2_ne_nil h, hsp3]

lemma parseChars_render_none (a h : ℕ) (rest : List Char) :
    parseChars (natDigits a ++ (sepDays ++ (pad2 h ++ ':' :: rest))) = none := by
  unfold parseChars
  rw [matchClock_render, matchDayClock_render, matchVerbose_render]

lemma parse_format_none {v : ℚ} (hv : 0 ≤ v) :
    parse_latency_string (format_seconds_as_string (some v)) = none := by
  have h0 : 0 ≤ pyround v := pyround_nonneg hv
  show parseChars (format_core (pyround v)).data = none
  rw [show pyround v = ((pyround v).toNat : ℤ) from (Int.toNat_of_nonneg h0).symm,
    format_core_natCast]
  unfold spec_render
  show parseChars
    (natDigits _ ++ sepDays ++ pad2 _ ++ ':' :: pad2 _ ++ ':' :: pad2 _) = none
  simp only [List.cons_append, List.append_assoc]
  exact parseChars_render_none _ _ _

lemma format_stable (v : ℚ) :
    format_seconds_as_string (some ((pyround v : ℤ) : ℚ)) = format_seconds_as_string (some v) := by
  show format_core (pyround ((pyround v : ℤ) : ℚ)) = format_core (pyround v)
  rw [pyround_intCast]

lemma numberThen_all_digits (c : List Char) (hc : c ≠ []) (hcd : ∀ x ∈ c, isDigitCh x = true) :
    numberThen c = some ((natVal c : ℚ), []) := by
  have h := takeDigits_append c [] hcd (by simp)
  rw [List.append_nil] at h
  unfold numberThen
  rw [h]
  simp [hc]

lemma numberThen_frac (c f : List Char) (hc : c ≠ []) (hf : f ≠ [])
    (hcd : ∀ x ∈ c, isDigitCh x = true) (hfd : ∀ x ∈ f, isDigitCh x = true) :
    numberThen (c ++ '.' :: f) = some ((natVal c : ℚ) + fracVal f, []) := by
  have h1 := takeDigits_append c ('.' :: f) hcd (fun x hx => by simp at hx; subst hx; decide)
  have h2 := takeDigits_append f [] hfd (by simp)
  rw [List.append_nil] at h2
  unfold numberThen
  rw [h1]
  simp [hc, h2, hf]

lemma matchClock_clock (a b c : List Char) (ha : a ≠ []) (hb : b ≠ []) (hc : c ≠ [])
    (had : ∀ x ∈ a, isDigitCh x = true) (hbd : ∀ x ∈ b, isDigitCh x = true)
    (hcd : ∀ x ∈ c, isDigitCh x = true) :
    matchClock (a ++ ':' :: (b ++ ':' :: c))
      = some ((natVal a : ℚ) * 3600 + (natVal b : ℚ) * 60 + (natVal c : ℚ)) := by
  have h1 := takeDigits_append a (':' :: (b ++ ':' :: c)) had
    (fun x hx => by simp at hx; subst hx; decide)
  have h2 := takeDigits_append b (':' :: c) hbd
    (fun x hx => by simp at hx; subst hx; decide)
  have h3 := numberThen_all_digits c hc hcd
  unfold matchClock
  rw [h1]
  simp [ha, h2, hb, h3]

lemma matchClock_clock_frac (a b c f : List Char) (ha : a ≠ []) (hb : b ≠ []) (hc : c ≠ [])
    (hf : f ≠ []) (had : ∀ x ∈ a, isDigitCh x = true) (hbd : ∀ x ∈ b, isDigitCh x = true)
    (hcd : ∀ x ∈ c, isDigitCh x = true) (hfd : ∀ x ∈ f, isDigitCh x = true) :
    matchClock (a ++ ':' :: (b ++ ':' :: (c ++ '.' :: f)))
      = some ((natVal a : ℚ) * 3600 + (natVal b : ℚ) * 60 + ((natVal c : ℚ) + fracVal f)) := by
  have h1 := takeDigits_append a (':' :: (b ++ ':' :: (c ++ '.' :: f))) had
    (fun x hx => by simp at hx; subst hx; decide)
  have h2 := takeDigits_append b (':' :: (c ++ '.' :: f)) hbd
    (fun x hx => by simp at hx; subst hx; decide)
  have h3 := numberThen_frac c f hc hf hcd hfd
  unfold matchClock
  rw [h1]
  simp [ha, h2, hb, h3]

lemma countP_le_split (l : List ℚ) (x : ℚ) :
    l.countP (fun y => decide (y ≤ x))
      = l.countP (fun y => decide (y < x)) + l.countP (fun y => decide (y = x)) := by
  induction l with
  | nil => simp
  | cons a l ih =>
    simp only [List.countP_cons, ih]
    rcases lt_trichotomy a x with h | h | h
    · simp [le_of_lt h, h, ne_of_lt h]
      omega
    · subst h
      simp
      omega
    · simp [not_le_of_gt h, not_lt_of_gt h, ne_of_gt h]

lemma rank_pct_formula (l : List ℚ) (x : ℚ) :
    rank_pct l x
      = ((l.countP (fun y => decide (y < x)) : ℚ)
          + ((l.countP (fun y => decide (y = x)) : ℚ) + 1) / 2) / (l.length : ℚ) := by
  unfold rank_pct
  rw [countP_le_split]
  push_cast
  ring_nf

lemma rank_pct_untied (l : List ℚ) (x : ℚ)
    (h1 : l.countP (fun y => decide (y = x)) = 1) :
    rank_pct l x = spec_fracLE l x := by
  unfold rank_pct spec_fracLE
  rw [countP_le_split, h1]
  push_cast
  ring_nf

/-- C1: the claimed behaviour fails in `parse_latency_string` (final.py):
its verbose pattern A has no years/mons prefix, so the docstring's own
sample input `"0 years 0 mons 0 days 0 hours 0 mins 12.565 secs"` parses
to `None` there, not to `12.565`; the same string is parsed to `12.565` by
the dashboard's custom verbose regex, and pattern A does accept the
prefix-free verbose form. -/
theorem C1_verbose_years_evidence :
    parse_latency_string "0 years 0 mons 0 days 0 hours 0 mins 12.565 secs" = none
    ∧ parse_timedelta_safe_verbose "0 years 0 mons 0 days 0 hours 0 mins 12.565 secs"
        = some (12565 / 1000)
    ∧ parse_latency_string "0 days 0 hours 0 mins 12.565 secs" = some (12565 / 1000) := by
  refine ⟨?_, ?_, ?_⟩
  · simp +decide [parse_latency_string, parseChars, matchClock, matchDayClock, matchVerbose,
      unitThen, numberThen, spacesThen, litThen, optChar, takeDigits, takeSpaces, isDigitCh,
      isSpaceCh, natVal, fracVal]
  · simp +decide [parse_timedelta_safe_verbose, unitThen, numberThen, spacesThen, litThen,
      optChar, takeDigits, takeSpaces, isDigitCh, isSpaceCh, natVal, fracVal]
    norm_num
  · simp +decide [parse_latency_string, parseChars, matchClock, matchDayClock, matchVerbose,
      unitThen, numberThen, spacesThen, litThen, optChar, takeDigits, takeSpaces, isDigitCh,
      isSpaceCh, natVal, fracVal]
    norm_num

/-- C2 counterexample: on the exceeding subset `[1801, 1801]` (both above
the 1800 threshold) the classifier assigns the tied value `1801` the pandas
average percentile rank `3/4`, while the fraction of the subset with value
`≤ 1801` is `1`; the claimed equality fails under ties. -/
theorem C2_counterexample :
    exceedValues [some 1801, some 1801] = [1801, 1801]
    ∧ breach_rank [some 1801, some 1801] 1801 = 3 / 4
    ∧ spec_fracLE (exceedValues [some 1801, some 1801]) 1801 = 1
    ∧ breach_rank [some 1801, some 1801] 1801
        ≠ spec_fracLE (exceedValues [some 1801, some 1801]) 1801 := by
  norm_num [breach_rank, rank_pct, spec_fracLE, exceedValues, threshold_sec,
    List.filterMap_cons, List.filter_cons, List.countP_cons]

/-- C2 (amended): the rank the classifier assigns within the exceeding
subset is the pandas average percentile rank
`(count_less + (count_eq + 1)/2) / n`; tied values share this rank, and it
equals the spec's fraction of the subset with value ≤ the record's value
exactly when the record's value is untied. -/
theorem C2_average_rank :
    ∀ (batch : List (Option ℚ)) (x : ℚ), x ∈ exceedValues batch →
      breach_rank batch x
        = (((exceedValues batch).countP (fun y => decide (y < x)) : ℚ)
            + (((exceedValues batch).countP (fun y => decide (y = x)) : ℚ) + 1) / 2)
          / ((exceedValues batch).length : ℚ)
      ∧ ((exceedValues batch).countP (fun y => decide (y = x)) = 1 →
          breach_rank batch x = spec_fracLE (exceedValues batch) x) :=
  fun _ x _ => ⟨rank_pct_formula _ x, fun h1 => rank_pct_untied _ x h1⟩

/-- C2 witness: on the exceeding subset `[1801, 3600]` the value `1801` is
untied and its assigned rank equals the spec's fraction-below-or-equal. -/
theorem C2_witness :
    breach_rank [some 1801, some 3600] 1801
      = spec_fracLE (exceedValues [some 1801, some 3600]) 1801 :=
  (C2_average_rank [some 1801, some 3600] 1801
      (by norm_num [exceedValues, threshold_sec, List.filterMap_cons, List.filter_cons])).2
    (by norm_num [exceedValues, threshold_sec, List.filterMap_cons, List.filter_cons,
      List.countP_cons])

/-- C3: on the exceeding subset `[1801, 3600, 5400, 7200]` the classifier
computes the ranks `[0.25, 0.5, 0.75, 1.0]` and bins them into
`["<=50th percentile", "<=50th percentile", "70-80th percentile",
"90-100th percentile"]`; the six half-open bins behave as claimed at their
edges, the lowest edge falling in the first bin. -/
theorem C3_percentile_binning :
    exceedValues [some 1801, some 3600, some 5400, some 7200] = [1801, 3600, 5400, 7200]
    ∧ (exceedValues [some 1801, some 3600, some 5400, some 7200]).map
        (breach_rank [some 1801, some 3600, some 5400, some 7200])
        = [1 / 4, 1 / 2, 3 / 4, 1]
    ∧ classify_batch [some 1801, some 3600, some 5400, some 7200]
        = [some "<=50th percentile", some "<=50th percentile",
           some "70-80th percentile", some "90-100th percentile"]
    ∧ binLabel 0 = some "<=50th percentile"
    ∧ binLabel (1 / 2) = some "<=50th percentile"
    ∧ binLabel (51 / 100) = some "50-60th percentile"
    ∧ binLabel (6 / 10) = some "50-60th percentile"
    ∧ binLabel (7 / 10) = some "60-70th percentile"
    ∧ binLabel (8 / 10) = some "70-80th percentile"
    ∧ binLabel (9 / 10) = some "80-90th percentile"
    ∧ binLabel 1 = some "90-100th percentile" := by
  norm_num [classify_batch, breach_category, breach_rank, rank_pct, binLabel, exceedValues,
    threshold_sec, List.filterMap_cons, List.filter_cons, List.countP_cons]

/-- C4: the threshold constant is 1800; in any batch, a record with a
numeric total of at most 1800 seconds is labeled exactly
`"Within Threshold"`, and no record with a total above 1800 receives that
label. -/
theorem C4_within_threshold :
    threshold_sec = 1800
    ∧ ∀ (batch : List (Option ℚ)) (v : ℚ),
        (v ≤ 1800 → breach_category batch (some v) = some "Within Threshold")
        ∧ (1800 < v → breach_category batch (some v) ≠ some "Within Threshold") := by
  refine ⟨rfl, fun batch v => ⟨fun h => ?_, fun h => ?_⟩⟩
  · show (if v ≤ threshold_sec then some "Within Threshold"
      else binLabel (breach_rank batch v)) = some "Within Threshold"
    rw [if_pos (show v ≤ threshold_sec from h)]
  · show (if v ≤ threshold_sec then some "Within Threshold"
      else binLabel (breach_rank batch v)) ≠ some "Within Threshold"
    rw [if_neg (show ¬v ≤ threshold_sec from not_le.mpr h)]
    unfold binLabel
    split_ifs <;> decide

/-- C4 witness: in the batch `[100, 2000]` the total `100` is labeled
`"Within Threshold"` and the total `2000` is not. -/
theorem C4_witness :
    breach_category [some 100, some 2000] (some 100) = some "Within Threshold"
    ∧ breach_category [some 100, some 2000] (some 2000) ≠ some "Within Threshold" :=
  ⟨(C4_within_threshold.2 [some 100, some 2000] 100).1 (by norm_num),
   (C4_within_threshold.2 [some 100, some 2000] 2000).2 (by norm_num)⟩

/-- C5: a joined record either of whose legs is missing or unparseable has
a missing total, is selected by neither the within-threshold nor the
exceeding mask, leaves the exceeding subset (hence every percentile
statistic) unchanged, and is still retained in the report with an empty
rendered total, a missing breach value, and the dashboard category
`"Missing Data"`. -/
theorem C5_missing_data :
    ∀ (batch : List (Option ℚ)) (j : JoinedRecord),
      j.ab.latency_a_to_b_sec = none ∨ latency_b_to_c_sec j = none →
      total_latency_sec j = none
      ∧ within_mask (total_latency_sec j) = false
      ∧ exceed_mask (total_latency_sec j) = false
      ∧ breach_category batch (total_latency_sec j) = none
      ∧ (toReportRow batch j).total_latency = ""
      ∧ (toReportRow batch j).breach_percentage = none
      ∧ categorize_breach ((toReportRow batch j).breach_percentage) = "Missing Data"
      ∧ ∀ rest, exceedValues (total_latency_sec j :: rest) = exceedValues rest := by
  intro batch j h
  have ht : total_latency_sec j = none := by
    unfold total_latency_sec
    rcases h with h | h
    · rw [h]
    · rw [h]
      rcases j.ab.latency_a_to_b_sec with _ | x <;> rfl
  have hrep : (toReportRow batch j).breach_percentage = none := by
    show breach_category batch (total_latency_sec j) = none
    rw [ht]
    rfl
  refine ⟨ht, by rw [ht]; rfl, by rw [ht]; rfl, by rw [ht]; rfl, ?_, hrep, ?_, ?_⟩
  · show format_seconds_as_string (total_latency_sec j) = ""
    rw [ht]
    rfl
  · rw [hrep]
    rfl
  · intro rest
    rw [ht]
    unfold exceedValues
    rw [List.filterMap_cons]
    rfl

/-- C5 witness: the record `jBad`, whose B→C duration text is unparseable,
is excluded from both partitions and from the exceeding subset, and is
reported with an empty total and the `"Missing Data"` category. -/
theorem C5_witness :
    total_latency_sec jBad = none
    ∧ within_mask (total_latency_sec jBad) = false
    ∧ exceed_mask (total_latency_sec jBad) = false
    ∧ (toReportRow [] jBad).total_latency = ""
    ∧ categorize_breach ((toReportRow [] jBad).breach_percentage) = "Missing Data"
    ∧ exceedValues (total_latency_sec jBad :: [some 2000]) = exceedValues [some 2000] := by
  have h := C5_missing_data [] jBad (Or.inr (by
    simp +decide [latency_b_to_c_sec, jBad, bcBad, parse_latency_string, parseChars, matchClock,
      matchDayClock, matchVerbose, unitThen, numberThen, spacesThen, litThen, optChar, takeDigits,
      takeSpaces, isDigitCh, isSpaceCh]))
  exact ⟨h.1, h.2.1, h.2.2.1, h.2.2.2.2.1, h.2.2.2.2.2.2.1, h.2.2.2.2.2.2.2 [some 2000]⟩

/-- C6 counterexample: for the well-formed clock string `"0:00:12"` the
double round trip renders the empty string, not the single round trip's
`"0 days 00:00:12"`: the rendered form matches none of the three parse
patterns (the day-clock pattern requires a comma). -/
theorem C6_counterexample :
    format_seconds_as_string (parse_latency_string
        (format_seconds_as_string (parse_latency_string "0:00:12")))
      ≠ format_seconds_as_string (parse_latency_string "0:00:12") := by
  have h1 : parse_latency_string "0:00:12" = some 12 := by
    simp +decide [parse_latency_string, parseChars, matchClock, matchDayClock, matchVerbose,
      unitThen, numberThen, spacesThen, litThen, optChar, takeDigits, takeSpaces, isDigitCh,
      isSpaceCh, natVal, fracVal]
  have h2 : format_seconds_as_string (some 12) = "0 days 00:00:12" := by
    simp +decide [format_seconds_as_string, format_core, pyround, sepDays, pad2, natDigits,
      natDigitsAux, digitCh, intDigits]
  have h3 : parse_latency_string "0 days 00:00:12" = none := by
    simp +decide [parse_latency_string, parseChars, matchClock, matchDayClock, matchVerbose,
      unitThen, numberThen, spacesThen, litThen, optChar, takeDigits, takeSpaces, isDigitCh,
      isSpaceCh, natVal, fracVal]
  rw [h1, h2, h3]
  decide

/-- C6 (amended): for every non-negative parsed value, one render pass is
already stable under re-rounding (rendering the rounded whole-second value
gives the same string), but the rendered string itself is unparseable by
`parse_latency_string`, so the double round trip of any well-formed string
yields the empty render rather than the claimed same whole-second value. -/
theorem C6_render_stability :
    ∀ v : ℚ, 0 ≤ v →
      parse_latency_string (format_seconds_as_string (some v)) = none
      ∧ format_seconds_as_string (some ((pyround v : ℤ) : ℚ))
          = format_seconds_as_string (some v) :=
  fun v hv => ⟨parse_format_none hv, format_stable v⟩

/-- C6 witness: the stability and unparseability facts at the parsed value
of `"0 years 0 mons 0 days 0 hours 0 mins 12.565 secs"`, namely 12.565. -/
theorem C6_witness :
    parse_latency_string (format_seconds_as_string (some (12565 / 1000))) = none
    ∧ format_seconds_as_string (some ((pyround (12565 / 1000) : ℤ) : ℚ))
        = format_seconds_as_string (some (12565 / 1000)) :=
  C6_render_stability (12565 / 1000) (by norm_num)

/-- C7: whenever a string matches none of the three recognized encodings,
`parse_latency_string` returns the failure marker `none`, never a numeric
value (and, being a total function, never an exception). -/
theorem C7_nonmatching_returns_none :
    ∀ s : String, matchClock s.data = none → matchDayClock s.data = none →
      matchVerbose s.data = none → parse_latency_string s = none := by
  intro s h1 h2 h3
  unfold parse_latency_string parseChars
  rw [h1, h2, h3]

/-- C7 witness: the string `"not a duration"` matches no encoding and
parses to `none`. -/
theorem C7_witness : parse_latency_string "not a duration" = none := by
  have e1 : matchClock "not a duration".data = none := by
    simp +decide [matchClock, takeDigits, isDigitCh]
  have e2 : matchDayClock "not a duration".data = none := by
    simp +decide [matchDayClock, takeDigits, isDigitCh]
  have e3 : matchVerbose "not a duration".data = none := by
    simp +decide [matchVerbose, takeDigits, isDigitCh]
  exact C7_nonmatching_returns_none "not a duration" e1 e2 e3

/-- C8: the join is strictly inner: every booking code in the final report
comes from both input sets, and a code missing from either input set never
appears in the report. -/
theorem C8_inner_join :
    ∀ (ab : List ABRecord) (bc : List BCRecord) (c : String),
      (c ∈ reportCodes ab bc →
        c ∈ ab.map ABRecord.booking_code ∧ c ∈ bc.map BCRecord.booking_code)
      ∧ ((c ∉ ab.map ABRecord.booking_code ∨ c ∉ bc.map BCRecord.booking_code) →
          c ∉ reportCodes ab bc) := by
  intro ab bc c
  have hboth : c ∈ reportCodes ab bc →
      c ∈ ab.map ABRecord.booking_code ∧ c ∈ bc.map BCRecord.booking_code := by
    intro hc
    simp only [reportCodes, make_report, List.map_map] at hc
    rw [List.mem_map] at hc
    obtain ⟨j, hj, hcode⟩ := hc
    rw [innerJoin, List.mem_flatMap] at hj
    obtain ⟨a, ha, hj2⟩ := hj
    rw [List.mem_map] at hj2
    obtain ⟨b, hb2, rfl⟩ := hj2
    rw [List.mem_filter] at hb2
    obtain ⟨hb, hba⟩ := hb2
    have hba2 : b.booking_code = a.booking_code := by simpa using hba
    have hcode2 : a.booking_code = c := hcode
    exact ⟨List.mem_map.mpr ⟨a, ha, hcode2⟩,
      List.mem_map.mpr ⟨b, hb, by rw [hba2, hcode2]⟩⟩
  refine ⟨hboth, fun h hc => ?_⟩
  rcases h with h | h
  · exact h (hboth hc).1
  · exact h (hboth hc).2

/-- C8 witness: the code Y, present only in the A→B input, is absent from
the report built from `abEx` and `bcEx`. -/
theorem C8_witness : "Y" ∉ reportCodes abEx bcEx :=
  (C8_inner_join abEx bcEx "Y").2 (Or.inr (by decide))

/-- C9: the renderer maps a missing value to the empty string, never to the
zero rendering `"0 days 00:00:00"`, and maps every non-negative numeric
value `v` to the spec's fixed form `"{days} days {hh:02d}:{mm:02d}:{ss:02d}"`
of a whole-second count within half a second of `v`. -/
theorem C9_render_fixed_form :
    format_seconds_as_string none = ""
    ∧ spec_render 0 = "0 days 00:00:00"
    ∧ format_seconds_as_string none ≠ spec_render 0
    ∧ ∀ v : ℚ, 0 ≤ v →
        format_seconds_as_string (some v) = spec_render (pyround v).toNat
        ∧ |v - ((pyround v).toNat : ℚ)| ≤ 1 / 2 := by
  have hzero : spec_render 0 = "0 days 00:00:00" := by
    simp +decide [spec_render, natDigits, natDigitsAux, digitCh, pad2, sepDays]
  refine ⟨rfl, hzero, by rw [hzero]; decide, fun v hv => ⟨?_, ?_⟩⟩
  · show format_core (pyround v) = spec_render (pyround v).toNat
    conv_lhs => rw [show pyround v = ((pyround v).toNat : ℤ) from
      (Int.toNat_of_nonneg (pyround_nonneg hv)).symm]
    rw [format_core_natCast]
  · have hcast : (((pyround v).toNat : ℕ) : ℚ) = ((pyround v : ℤ) : ℚ) := by
      exact_mod_cast congrArg (fun z : ℤ => (z : ℚ)) (Int.toNat_of_nonneg (pyround_nonneg hv))
    rw [hcast]
    exact pyround_nearest v

/-- C9 witness: the renderer and the half-second bound at the value 75.4
seconds. -/
theorem C9_witness :
    format_seconds_as_string (some (754 / 10)) = spec_render (pyround (754 / 10)).toNat
    ∧ |(754 / 10 : ℚ) - ((pyround (754 / 10)).toNat : ℚ)| ≤ 1 / 2 :=
  C9_render_fixed_form.2.2.2 (754 / 10) (by norm_num)

/-- C10: the clock-form pattern accepts digit runs of any length for all
three fields, with no 0-59 bound on minutes or seconds: any
`digits:digits:digits` string, optionally with a fractional-digit suffix,
parses to `hours*3600 + minutes*60 + seconds`. -/
theorem C10_clock_no_range_check :
    ∀ (a b c : List Char), a ≠ [] → b ≠ [] → c ≠ [] →
      (∀ x ∈ a, isDigitCh x = true) → (∀ x ∈ b, isDigitCh x = true) →
      (∀ x ∈ c, isDigitCh x = true) →
      parseChars (a ++ ':' :: (b ++ ':' :: c))
        = some ((natVal a : ℚ) * 3600 + (natVal b : ℚ) * 60 + (natVal c : ℚ))
      ∧ ∀ f, f ≠ [] → (∀ x ∈ f, isDigitCh x = true) →
        parseChars (a ++ ':' :: (b ++ ':' :: (c ++ '.' :: f)))
          = some ((natVal a : ℚ) * 3600 + (natVal b : ℚ) * 60
              + ((natVal c : ℚ) + fracVal f)) := by
  intro a b c ha hb hc had hbd hcd
  constructor
  · unfold parseChars
    rw [matchClock_clock a b c ha hb hc had hbd hcd]
  · intro f hf hfd
    unfold parseChars
    rw [matchClock_clock_frac a b c f ha hb hc hf had hbd hcd hfd]

/-- C10 witness: `"0:99:99"` parses to 6039 seconds via the general
clock-form theorem, and a fractional variant `0:6:4.5` parses to
`6*60 + 4.5`. -/
theorem C10_witness :
    parse_latency_string "0:99:99" = some 6039
    ∧ parseChars (['0'] ++ ':' :: (['6'] ++ ':' :: (['4'] ++ '.' :: ['5'])))
        = some ((natVal ['0'] : ℚ) * 3600 + (natVal ['6'] : ℚ) * 60
            + ((natVal ['4'] : ℚ) + fracVal ['5'])) := by
  constructor
  · have h := (C10_clock_no_range_check ['0'] ['9', '9'] ['9', '9'] (by decide) (by decide)
      (by decide) (by decide) (by decide) (by decide)).1
    have hdata : "0:99:99".data = ['0'] ++ ':' :: (['9', '9'] ++ ':' :: ['9', '9']) := by decide
    rw [parse_latency_string, hdata, h]
    have hv : natVal ['0'] = 0 ∧ natVal ['9', '9'] = 99 := by decide
    rw [hv.1, hv.2]
    norm_num
  · exact (C10_clock_no_range_check ['0'] ['6'] ['4'] (by decide) (by decide) (by decide)
      (by decide) (by decide) (by decide)).2 ['5'] (by decide) (by decide)
